import Mathlib

/-!
Verification of the bucket/object integration-test layer of the AWS C++ SDK
excerpt: the multipart upload orchestration, the completion verifier, the
bucket lifecycle helper and two generated result parsers.

Bytes are modelled as natural numbers, payloads as lists of bytes. The
object store client (HeadBucket, GetObject, UploadPart, ...) is not part of
the excerpt, so its semantics is modelled from the specification; the test
helpers (DeleteBucket, EmptyBucket, the propagation waiters, the stream
generator, the upload-part verifier) are embedded from the source file
BucketAndObjectOperationTest.cpp, and the two result parsers from their
generated sources.
-/

/-- Error classes carried by a failed store call (spec section 7: typed error
code such as container-not-found / object-not-found). -/
inductive S3Error where
  | noSuchBucket
  | noSuchKey
  | noSuchUpload
  | invalidPart
  | bucketNotEmpty
deriving DecidableEq, Repr

/-- Outcome of a store call: success-with-result or failure-with-error,
returned as a value rather than raised (spec section 7). -/
inductive Outcome (ε α : Type) where
  | success (value : α)
  | failure (err : ε)
deriving DecidableEq, Repr

/-- Whether an outcome is a success (IsSuccess in the SDK). -/
def Outcome.isSuccess : Outcome ε α → Bool
  | .success _ => true
  | .failure _ => false

/-- Hex digit character code for a value below 16, lowercase convention. -/
def hexDigit (n : Nat) : Nat :=
  if n < 10 then 48 + n else 87 + n

/-- Modelled from the spec: HashingUtils.HexEncode, hex encoding of a byte
sequence, two digits per byte (the checksum function collaborator's hex
encoding; its source is not in the excerpt). -/
def hexEncode (bytes : List Nat) : List Nat :=
  bytes.foldr (fun b acc => hexDigit (b / 16) :: hexDigit (b % 16) :: acc) []

/-- Entity tag convention of the store (spec glossary: conventionally a
quoted content hash): the hex encoding of the checksum wrapped in double
quotes (byte 34). -/
def etagOf (md5 : List Nat → List Nat) (payload : List Nat) : List Nat :=
  34 :: hexEncode (md5 payload) ++ [34]

/-- Bytes of a character string, for concrete scenarios. -/
def strBytes (s : String) : List Nat :=
  s.data.map Char.toNat

/-- An object held by the store: its bytes and its entity tag. -/
structure StoredObject where
  bytes : List Nat
  etag : List Nat
deriving DecidableEq, Repr

/-- Objects of one container, keyed by object key. -/
abbrev ObjMap := List (String × StoredObject)

/-- One multipart upload session: target container, object key, and the
parts acknowledged so far as (sequence number, payload, entity tag). -/
structure MpSession where
  bucket : String
  key : String
  parts : List (Nat × List Nat × List Nat)
deriving DecidableEq, Repr

/-- Modelled from the spec: the object store state visible through the
client calls of spec section 6 (the store service itself is out of the
excerpt). Buckets map container names to their objects; sessions map
upload identifiers to multipart sessions. -/
structure S3Store where
  buckets : List (String × ObjMap)
  sessions : List (Nat × MpSession)
  nextId : Nat
deriving DecidableEq, Repr

/-- Replace the object map of container b by f of it, other containers
unchanged. -/
def updBucket (s : S3Store) (b : String) (f : ObjMap → ObjMap) : S3Store :=
  { s with buckets := s.buckets.map (fun p => if p.1 = b then (p.1, f p.2) else p) }

/-- Replace the session at uid by f of it, other sessions unchanged. -/
def updSession (s : S3Store) (uid : Nat) (f : MpSession → MpSession) : S3Store :=
  { s with sessions := s.sessions.map (fun p => if p.1 = uid then (p.1, f p.2) else p) }

/-- Modelled from the spec: headContainer, success exactly when the
container exists, failure with the no-such-container class otherwise. -/
def S3Store.headBucket (s : S3Store) (b : String) : Outcome S3Error Unit :=
  match s.buckets.lookup b with
  | some _ => .success ()
  | none => .failure .noSuchBucket

/-- Modelled from the spec: listObjects, the keys currently held by the
container, failure with the no-such-container class if it does not exist. -/
def S3Store.listObjects (s : S3Store) (b : String) : Outcome S3Error (List String) :=
  match s.buckets.lookup b with
  | some objs => .success (objs.map (fun p => p.1))
  | none => .failure .noSuchBucket

/-- Modelled from the spec: getObject, the stored object for the key;
no-such-key class on an existing container without the key, no-such-container
class on a nonexistent container. -/
def S3Store.getObject (s : S3Store) (b k : String) : Outcome S3Error StoredObject :=
  match s.buckets.lookup b with
  | none => .failure .noSuchBucket
  | some objs =>
    match objs.lookup k with
    | none => .failure .noSuchKey
    | some o => .success o

/-- Modelled from the spec: headObject, same success and error classes as
getObject but returning only the entity tag. -/
def S3Store.headObject (s : S3Store) (b k : String) : Outcome S3Error (List Nat) :=
  match s.buckets.lookup b with
  | none => .failure .noSuchBucket
  | some objs =>
    match objs.lookup k with
    | none => .failure .noSuchKey
    | some o => .success o.etag

/-- Modelled from the spec: putObject, stores the payload under the key and
reports the entity tag, the quoted hex checksum of the payload. -/
def S3Store.putObject (md5 : List Nat → List Nat) (s : S3Store) (b k : String)
    (payload : List Nat) : S3Store × Outcome S3Error (List Nat) :=
  match s.buckets.lookup b with
  | none => (s, .failure .noSuchBucket)
  | some _ =>
    let et := etagOf md5 payload
    (updBucket s b (fun objs => (k, ⟨payload, et⟩) :: objs.filter (fun p => p.1 != k)),
     .success et)

/-- Modelled from the spec: deleteObject, removes the key from the
container. -/
def S3Store.deleteObject (s : S3Store) (b k : String) : S3Store × Outcome S3Error Unit :=
  match s.buckets.lookup b with
  | none => (s, .failure .noSuchBucket)
  | some _ => (updBucket s b (fun objs => objs.filter (fun p => p.1 != k)), .success ())

/-- Modelled from the spec: deleteContainer, removes an existing empty
container; a container still holding objects is not deleted. -/
def S3Store.deleteBucket (s : S3Store) (b : String) : S3Store × Outcome S3Error Unit :=
  match s.buckets.lookup b with
  | none => (s, .failure .noSuchBucket)
  | some objs =>
    if objs.isEmpty then
      ({ s with buckets := s.buckets.filter (fun p => p.1 != b) }, .success ())
    else (s, .failure .bucketNotEmpty)

/-- Modelled from the spec: createMultipartUpload, opens a session and
returns its opaque upload identifier. -/
def S3Store.createMultipartUpload (s : S3Store) (b k : String) :
    S3Store × Outcome S3Error Nat :=
  match s.buckets.lookup b with
  | none => (s, .failure .noSuchBucket)
  | some _ =>
    ({ s with sessions := (s.nextId, ⟨b, k, []⟩) :: s.sessions, nextId := s.nextId + 1 },
     .success s.nextId)

/-- Modelled from the spec: uploadPart, records the payload under its
sequence number in the session (overwriting a previous upload of the same
number) and reports the part entity tag, the quoted hex checksum of the
payload. -/
def S3Store.uploadPart (md5 : List Nat → List Nat) (s : S3Store) (uid n : Nat)
    (payload : List Nat) : S3Store × Outcome S3Error (List Nat) :=
  match s.sessions.lookup uid with
  | none => (s, .failure .noSuchUpload)
  | some _ =>
    let et := etagOf md5 payload
    (updSession s uid (fun sess =>
       { sess with parts := (n, payload, et) :: sess.parts.filter (fun p => p.1 != n) }),
     .success et)

/-- The payload and entity tag recorded for sequence number n, if any. -/
def partsFind (parts : List (Nat × List Nat × List Nat)) (n : Nat) :
    Option (List Nat × List Nat) :=
  (parts.find? (fun p => p.1 == n)).map (fun p => p.2)

/-- Resolve each manifest entry against the uploaded parts, in manifest
order: the entry's sequence number must be uploaded and its entity tag must
match. -/
def resolveParts (parts : List (Nat × List Nat × List Nat)) :
    List (Nat × List Nat) → Option (List (List Nat))
  | [] => some []
  | m :: rest =>
    match partsFind parts m.1 with
    | none => none
    | some pl =>
      if pl.2 == m.2 then
        match resolveParts parts rest with
        | none => none
        | some tl => some (pl.1 :: tl)
      else none

/-- The bytes of the finalized object: the concatenation of the resolved
payloads in the order the manifest lists them. -/
def assembleParts (parts : List (Nat × List Nat × List Nat))
    (manifest : List (Nat × List Nat)) : Option (List Nat) :=
  (resolveParts parts manifest).map List.flatten

/-- Modelled from the spec: completeMultipartUpload, finalizes the session
with the supplied manifest of (sequence number, entity tag) pairs. The
store concatenates the referenced payloads in the order the manifest lists
them; a manifest entry that does not resolve, or an uploaded part the
manifest does not reference, fails the finalization. -/
def S3Store.completeMultipartUpload (md5 : List Nat → List Nat) (s : S3Store)
    (uid : Nat) (manifest : List (Nat × List Nat)) : S3Store × Outcome S3Error Unit :=
  match s.sessions.lookup uid with
  | none => (s, .failure .noSuchUpload)
  | some sess =>
    match assembleParts sess.parts manifest with
    | none => (s, .failure .invalidPart)
    | some bytes =>
      if sess.parts.all (fun p => manifest.any (fun m => m.1 == p.1)) then
        match s.buckets.lookup sess.bucket with
        | none => (s, .failure .noSuchBucket)
        | some _ =>
          let s1 := { s with sessions := s.sessions.filter (fun p => p.1 != uid) }
          (updBucket s1 sess.bucket (fun objs =>
             (sess.key, ⟨bytes, etagOf md5 bytes⟩) :: objs.filter (fun p => p.1 != sess.key)),
           .success ())
      else (s, .failure .invalidPart)

/-! Embeddings of the test-side helpers of BucketAndObjectOperationTest.cpp. -/

/-- Embedded from VerifyUploadPartOutcome (source lines 143-149): the outcome
must be a success and the entity tag must equal the hex encoding of the
locally computed checksum wrapped in double quotes. -/
def VerifyUploadPartOutcome (outcome : Outcome S3Error (List Nat))
    (md5OfStream : List Nat) : Bool :=
  match outcome with
  | .failure _ => false
  | .success et => (34 :: hexEncode md5OfStream ++ [34]) == et

/-- TIMEOUT_MAX of the source: the fixed retry ceiling of every polling
loop. -/
def TIMEOUT_MAX : Nat := 10

/-- Events of a polling loop: one store call per attempt, one 1-second sleep
after each failed attempt. -/
inductive PollEvent where
  | storeCall
  | sleep1s
deriving DecidableEq, Repr

/-- Embedded from the waiter loops (source lines 151-188): while the
post-incremented counter is below TIMEOUT_MAX, issue the store call; on
success return true, otherwise sleep one second and retry; return false when
the bound is exhausted. The recursion is on the remaining attempt budget
(TIMEOUT_MAX minus the counter); the successive call outcomes are abstracted
as the oracle cond, one Boolean per attempt index. -/
def pollAux (cond : Nat → Bool) (attempt : Nat) : Nat → Bool × List PollEvent
  | 0 => (false, [])
  | remaining + 1 =>
    if cond attempt then (true, [.storeCall])
    else
      let r := pollAux cond (attempt + 1) remaining
      (r.1, .storeCall :: .sleep1s :: r.2)

/-- The waiter loop started at counter zero: a full budget of TIMEOUT_MAX
attempts. -/
def pollPropagate (cond : Nat → Bool) : Bool × List PollEvent :=
  pollAux cond 0 TIMEOUT_MAX

/-- Embedded from WaitForBucketToPropagate: polls HeadBucket, whose outcome
at each attempt is given by the oracle. -/
def WaitForBucketToPropagate (heads : Nat → Outcome S3Error Unit) : Bool × List PollEvent :=
  pollPropagate (fun i => (heads i).isSuccess)

/-- Embedded from WaitForObjectToPropagate: polls HeadObject, whose outcome
at each attempt is given by the oracle. -/
def WaitForObjectToPropagate (headsObj : Nat → Outcome S3Error (List Nat)) :
    Bool × List PollEvent :=
  pollPropagate (fun i => (headsObj i).isSuccess)

/-- Store calls issued by the bucket lifecycle helper, in program order. -/
inductive StoreCall where
  | headBucketCall (b : String)
  | listObjectsCall (b : String)
  | deleteObjectCall (b k : String)
  | deleteBucketCall (b : String)
  | sleepCall
deriving DecidableEq, Repr

/-- Loop body of EmptyBucket: delete one listed object, ignoring the delete
outcome, and record the call. -/
def emptyBucketStep (b : String) (acc : S3Store × List StoreCall) (k : String) :
    S3Store × List StoreCall :=
  ((acc.1.deleteObject b k).1, acc.2 ++ [.deleteObjectCall b k])

/-- Embedded from EmptyBucket (source lines 190-207): list the objects; on
failure return; otherwise delete each listed object sequentially. -/
def EmptyBucket (s : S3Store) (b : String) : S3Store × List StoreCall :=
  match s.listObjects b with
  | .failure _ => (s, [.listObjectsCall b])
  | .success keys => keys.foldl (emptyBucketStep b) (s, [.listObjectsCall b])

/-- Embedded from WaitForBucketToEmpty (source lines 209-229): poll
ListObjects up to TIMEOUT_MAX times, sleeping one second while objects
remain; the Boolean records whether every list call succeeded (the source
asserts it). The recursion is on the remaining attempt budget; the store is
read-only here, so each poll sees the same state. -/
def waitForBucketToEmptyAux (s : S3Store) (b : String) : Nat → List StoreCall × Bool
  | 0 => ([], true)
  | remaining + 1 =>
    match s.listObjects b with
    | .failure _ => ([.listObjectsCall b], false)
    | .success keys =>
      if keys.length > 0 then
        let r := waitForBucketToEmptyAux s b remaining
        (.listObjectsCall b :: .sleepCall :: r.1, r.2)
      else ([.listObjectsCall b], true)

/-- The wait loop started at counter zero, as the source calls it: a full
budget of TIMEOUT_MAX attempts. -/
def WaitForBucketToEmpty (s : S3Store) (b : String) : List StoreCall × Bool :=
  waitForBucketToEmptyAux s b TIMEOUT_MAX

/-- Embedded from DeleteBucket (source lines 231-248), the ensureAbsent
helper: head the container; if absent do nothing; otherwise empty it, wait
for it to be empty, then delete the container. Returns the final store, the
calls issued in program order, and whether every asserted outcome
succeeded. -/
def DeleteBucket (s : S3Store) (b : String) : S3Store × List StoreCall × Bool :=
  match s.headBucket b with
  | .failure _ => (s, [.headBucketCall b], true)
  | .success _ =>
    let e := EmptyBucket s b
    let w := WaitForBucketToEmpty e.1 b
    let d := e.1.deleteBucket b
    (d.1, .headBucketCall b :: e.2 ++ w.1 ++ [.deleteBucketCall b], w.2 && (d.2).isSuccess)

/-- fiveMbSize of the source: 5 * 1024 * 1024. -/
def fiveMbSize : Nat := 5 * 1024 * 1024

/-- One line written per loop iteration of Create5MbStreamForUploadPart:
the fixed 28-character message, the part tag, a colon and the newline that
std endl emits. -/
def uploadPartLine (partTag : List Char) : List Char :=
  "Multi-Part upload Test Part ".data ++ partTag ++ [':', '\n']

/-- Embedded from the loop of Create5MbStreamForUploadPart (source lines
113-117): for i from 0 in steps of 30 while i is below fiveMbSize, append
one line to the stream. -/
def create5MbLoop (line : List Char) (i : Nat) : List Char :=
  if i < fiveMbSize then line ++ create5MbLoop line (i + 30) else []
termination_by fiveMbSize - i
decreasing_by simp only [fiveMbSize] at *; omega

/-- Embedded from Create5MbStreamForUploadPart (source lines 110-122): the
full contents of the generated part stream for a given part tag. -/
def Create5MbStreamForUploadPart (partTag : List Char) : List Char :=
  create5MbLoop (uploadPartLine partTag) 0

/-- Part-related events of the multipart orchestration, in program order. -/
inductive MpEvent where
  | submitPart (n : Nat)
  | awaitPart (n : Nat)
deriving DecidableEq, Repr

/-- The orchestration pattern for N parts: every submission of parts 1..N,
then every await of the returned handles, generalizing the source's fixed
three-part sequence. -/
def orchestrationEvents (N : Nat) : List MpEvent :=
  (List.range' 1 N).map MpEvent.submitPart ++ (List.range' 1 N).map MpEvent.awaitPart

/-- Embedded from TestMultiPartObjectOperations (source lines 419-441): the
program order of the three submission calls (MakeUploadPartOutcomeAndGetCallable,
which ends in UploadPartCallable) and the three awaits (the .get calls). -/
def testMultiPartEvents : List MpEvent :=
  [.submitPart 1, .submitPart 2, .submitPart 3, .awaitPart 1, .awaitPart 2, .awaitPart 3]

/-- One entry of the completion manifest: sequence number and entity tag,
as CompletedPart of the SDK. -/
structure CompletedPart where
  partNumber : Nat
  eTag : String
deriving DecidableEq, Repr

/-- AddParts of CompletedMultipartUpload: appends one part to the manifest
under construction. -/
def addParts (u : List CompletedPart) (p : CompletedPart) : List CompletedPart :=
  u ++ [p]

/-- Modelled from the spec: the (sequence number, entity tag) list the
completeMultipartUpload request actually carries. The caller adds parts one
by one via addParts and the request is serialized in stored order; supplying
ascending order is the caller's responsibility, no client-side reordering
happens (the request serializer is not in the excerpt). -/
def sentManifest (supplied : List CompletedPart) : List CompletedPart :=
  supplied.foldl addParts []

/-- Insertion of one part into a list kept ascending by sequence number. -/
def insertBySeq (p : CompletedPart) : List CompletedPart → List CompletedPart
  | [] => [p]
  | q :: rest => if p.partNumber ≤ q.partNumber then p :: q :: rest else q :: insertBySeq p rest

/-- Stated from the claim's words, for comparison with sentManifest: the
supplied manifest reordered into ascending sequence-number order. -/
def sortBySeqClaim (l : List CompletedPart) : List CompletedPart :=
  l.foldr insertBySeq []

/-! Embeddings of the two generated result parsers. -/

/-- JSON payload values as the parsers see them: strings, objects (ordered
field lists) and arrays; other JSON scalars do not occur in the two parsed
shapes. -/
inductive JsonVal where
  | str (s : String)
  | obj (fields : List (String × JsonVal))
  | arr (elems : List JsonVal)

/-- The value stored under a key of a JSON object, if any. -/
def jsonFind (j : JsonVal) (key : String) : Option JsonVal :=
  match j with
  | .obj fields => fields.lookup key
  | _ => none

/-- ValueExists of JsonValue: whether the key is present. -/
def valueExists (j : JsonVal) (key : String) : Bool :=
  (jsonFind j key).isSome

/-- GetString of JsonValue (called only on present keys by the parsers). -/
def getJsonString (j : JsonVal) (key : String) : String :=
  match jsonFind j key with
  | some (.str s) => s
  | _ => ""

/-- GetObject of JsonValue: the value under the key. -/
def getJsonObject (j : JsonVal) (key : String) : JsonVal :=
  match jsonFind j key with
  | some v => v
  | none => .obj []

/-- GetArray of JsonValue: the element list under the key. -/
def getJsonArray (j : JsonVal) (key : String) : List JsonVal :=
  match jsonFind j key with
  | some (.arr l) => l
  | _ => []

/-- Fields of GetDocumentationPartResult. -/
structure GetDocumentationPartResult where
  m_id : String
  m_location : JsonVal
  m_properties : String

/-- Default-constructed GetDocumentationPartResult. -/
def gdprDefault : GetDocumentationPartResult :=
  ⟨"", .obj [], ""⟩

/-- Embedded from GetDocumentationPartResult assignment from a service
response (source lines 36-60): each of id, location and properties is
assigned only when its key exists in the payload. -/
def GetDocumentationPartResult.assign (r : GetDocumentationPartResult)
    (payload : JsonVal) : GetDocumentationPartResult :=
  let r1 := if valueExists payload "id" then { r with m_id := getJsonString payload "id" } else r
  let r2 := if valueExists payload "location" then
      { r1 with m_location := getJsonObject payload "location" } else r1
  if valueExists payload "properties" then
    { r2 with m_properties := getJsonString payload "properties" } else r2

/-- Fields of DescribeSubscriptionFiltersResult. -/
structure DescribeSubscriptionFiltersResult where
  m_subscriptionFilters : List JsonVal
  m_nextToken : String

/-- Default-constructed DescribeSubscriptionFiltersResult. -/
def dsfDefault : DescribeSubscriptionFiltersResult :=
  ⟨[], ""⟩

/-- Embedded from DescribeSubscriptionFiltersResult assignment from a
service response (source lines 36-57): when the subscriptionFilters key
exists, each array element is pushed onto the member list in array order;
nextToken is assigned only when its key exists. -/
def DescribeSubscriptionFiltersResult.assign (r : DescribeSubscriptionFiltersResult)
    (payload : JsonVal) : DescribeSubscriptionFiltersResult :=
  let pushed := (getJsonArray payload "subscriptionFilters").foldl (fun acc x => acc ++ [x]) r.m_subscriptionFilters
  let r1 := if valueExists payload "subscriptionFilters" then
      { r with m_subscriptionFilters := pushed }
    else r
  if valueExists payload "nextToken" then
    { r1 with m_nextToken := getJsonString payload "nextToken" } else r1

/-! The multipart orchestration of the store model, for the end-to-end
concatenation property. -/

/-- The original payload of part i (1-based sequence numbers). -/
def payloadAt (payloads : List (List Nat)) (i : Nat) : List Nat :=
  payloads.getD (i - 1) []

/-- One concurrent part upload as it lands at the store: part i carries the
i-th payload (1-based). -/
def uploadAllStep (md5 : List Nat → List Nat) (uid : Nat) (payloads : List (List Nat))
    (st : S3Store) (i : Nat) : S3Store :=
  (st.uploadPart md5 uid i (payloadAt payloads i)).1

/-- The store after the N concurrent part uploads have landed in the given
completion order. -/
def uploadAll (md5 : List Nat → List Nat) (uid : Nat) (payloads : List (List Nat))
    (order : List Nat) (s : S3Store) : S3Store :=
  order.foldl (uploadAllStep md5 uid payloads) s

/-- The part record the store keeps for sequence number i. -/
def partEntry (md5 : List Nat → List Nat) (payloads : List (List Nat)) (i : Nat) :
    Nat × List Nat × List Nat :=
  (i, payloadAt payloads i, etagOf md5 (payloadAt payloads i))

/-- The completion manifest sorted by ascending sequence number: entry i
pairs sequence number i with the entity tag of the i-th payload. -/
def ascendingManifest (md5 : List Nat → List Nat) (payloads : List (List Nat)) :
    List (Nat × List Nat) :=
  (List.range' 1 payloads.length).map (fun i => (i, etagOf md5 (payloadAt payloads i)))

/-! Shared lemmas about association lists and folds. -/

lemma lookup_map_update {κ β : Type} [BEq κ] [LawfulBEq κ] [DecidableEq κ] (f : β → β) (b : κ) :
    ∀ l : List (κ × β),
      (l.map (fun p => if p.1 = b then (p.1, f p.2) else p)).lookup b = (l.lookup b).map f := by
  intro l
  induction l with
  | nil => rfl
  | cons p t ih =>
    obtain ⟨a, v⟩ := p
    simp only [List.map_cons]
    by_cases hab : a = b
    · subst hab
      rw [if_pos rfl]
      simp [List.lookup]
    · rw [if_neg (by simpa using hab)]
      simp [List.lookup, show (b == a) = false from by simp [Ne.symm hab], ih]

lemma lookup_filter_ne {κ β : Type} [BEq κ] [LawfulBEq κ] (b : κ) :
    ∀ l : List (κ × β), (l.filter (fun p => p.1 != b)).lookup b = none := by
  intro l
  induction l with
  | nil => rfl
  | cons p t ih =>
    obtain ⟨a, v⟩ := p
    by_cases hab : a = b
    · subst hab
      simpa using ih
    · simp only [List.filter, show (a != b) = true from by simp [hab]]
      simp [List.lookup, show (b == a) = false from by simp [Ne.symm hab], ih]

lemma foldl_push {α : Type} : ∀ (l acc : List α), l.foldl (fun a x => a ++ [x]) acc = acc ++ l := by
  intro l
  induction l with
  | nil => intro acc; simp
  | cons x t ih => intro acc; rw [List.foldl_cons, ih]; simp

lemma lookup_updSession (s : S3Store) (uid : Nat) (f : MpSession → MpSession) :
    (updSession s uid f).sessions.lookup uid = (s.sessions.lookup uid).map f := by
  unfold updSession
  exact lookup_map_update f uid s.sessions

lemma lookup_updBucket (s : S3Store) (b : String) (f : ObjMap → ObjMap) :
    (updBucket s b f).buckets.lookup b = (s.buckets.lookup b).map f := by
  unfold updBucket
  exact lookup_map_update f b s.buckets

/-! Claim C2: what the finalize request actually sends. -/

/-- C2 counterexample: the finalize path performs no sorting; on the
manifest [(2, "b"), (1, "a")] the sequence of pairs actually sent differs
from that manifest reordered into ascending sequence-number order. -/
theorem sentManifest_unsorted_cex :
    sentManifest [⟨2, "b"⟩, ⟨1, "a"⟩] ≠ sortBySeqClaim [⟨2, "b"⟩, ⟨1, "a"⟩] := by
  decide

/-- C2 amended: the finalize operation submits the completion manifest
exactly as the caller supplied it, performing no reordering; supplying
ascending sequence-number order is the caller's responsibility. -/
theorem sentManifest_preserves_caller_order (supplied : List CompletedPart) :
    sentManifest supplied = supplied := by
  show supplied.foldl addParts [] = supplied
  have h : addParts = fun (u : List CompletedPart) p => u ++ [p] := rfl
  rw [h, foldl_push]
  simp

/-! Claim C4: error classes of getObject and headObject. -/

/-- C4: a getObject or headObject call for a key absent from an existing
container fails with the no-such-key class; on a nonexistent container it
fails with the no-such-container class; each failure is an outcome value
carrying the error, not an exception. -/
theorem missing_key_and_bucket_error_classes (s : S3Store) (b k : String) :
    (∀ objs, s.buckets.lookup b = some objs → objs.lookup k = none →
        s.getObject b k = .failure .noSuchKey ∧ s.headObject b k = .failure .noSuchKey)
    ∧ (s.buckets.lookup b = none →
        s.getObject b k = .failure .noSuchBucket
        ∧ s.headObject b k = .failure .noSuchBucket) := by
  constructor
  · intro objs hb hk
    constructor <;> simp [S3Store.getObject, S3Store.headObject, hb, hk]
  · intro hb
    constructor <;> simp [S3Store.getObject, S3Store.headObject, hb]

/-- C4 witness: on a store with one empty container, getObject for a fresh
key fails with the no-such-key class, and on a missing container with the
no-such-container class. -/
theorem missing_key_and_bucket_error_classes_witness :
    ((⟨[("bkt", [])], [], 0⟩ : S3Store).getObject "bkt" "TestObjectKey"
        = .failure .noSuchKey)
    ∧ ((⟨[("bkt", [])], [], 0⟩ : S3Store).getObject "gone" "TestObjectKey"
        = .failure .noSuchBucket) :=
  ⟨((missing_key_and_bucket_error_classes ⟨[("bkt", [])], [], 0⟩ "bkt" "TestObjectKey").1
      [] (by decide) (by decide)).1,
   ((missing_key_and_bucket_error_classes ⟨[("bkt", [])], [], 0⟩ "gone" "TestObjectKey").2
      (by decide)).1⟩

/-! Claim C8: all submissions precede the first await. -/

/-- C8: in the multipart orchestration, every part submission precedes every
handle await in program order, and the source's three-part sequence is an
instance of the general pattern. -/
theorem submits_precede_awaits (N i j n m : Nat)
    (hi : (orchestrationEvents N)[i]? = some (.submitPart n))
    (hj : (orchestrationEvents N)[j]? = some (.awaitPart m)) :
    i < j ∧ testMultiPartEvents = orchestrationEvents 3 := by
  constructor
  · have hiN : i < N := by
      by_contra hc
      push_neg at hc
      rw [orchestrationEvents, List.getElem?_append_right (by simpa using hc)] at hi
      simp [List.getElem?_map] at hi
    have hjN : N ≤ j := by
      by_contra hc
      push_neg at hc
      rw [orchestrationEvents, List.getElem?_append, if_pos (by simpa using hc)] at hj
      simp [List.getElem?_map] at hj
    omega
  · decide

/-- C8 witness: at the source's three parts, the first submission (index 0)
precedes the first await (index 3). -/
theorem submits_precede_awaits_witness :
    0 < 3 ∧ testMultiPartEvents = orchestrationEvents 3 :=
  submits_precede_awaits 3 0 3 1 1 (by decide) (by decide)

/-! Claim C9: length of the generated part stream. -/

lemma create5MbLoop_length (line : List Char) :
    ∀ (n i : Nat), fiveMbSize - i ≤ n →
      (create5MbLoop line i).length = ((fiveMbSize - i + 29) / 30) * line.length := by
  intro n
  induction n with
  | zero =>
    intro i h
    rw [create5MbLoop, if_neg (by omega)]
    have h0 : fiveMbSize - i = 0 := by omega
    simp [h0]
  | succ n ih =>
    intro i h
    rw [create5MbLoop]
    by_cases hi : i < fiveMbSize
    · rw [if_pos hi]
      simp only [List.length_append]
      rw [ih (i + 30) (by omega)]
      have harith : (fiveMbSize - i + 29) / 30 = (fiveMbSize - (i + 30) + 29) / 30 + 1 := by
        omega
      rw [harith]
      ring
    · rw [if_neg hi]
      have h0 : fiveMbSize - i = 0 := by omega
      simp [h0]

/-- C9 counterexample: for the one-character part tag "1" the generated
stream is not 5 MiB long (it is 5417653 bytes, not 5242880). -/
theorem stream_not_exactly_5MiB_cex :
    (Create5MbStreamForUploadPart ['1']).length ≠ 5 * 1024 * 1024 := by
  have hline : (uploadPartLine ['1']).length = 31 := by decide
  have h := create5MbLoop_length (uploadPartLine ['1']) fiveMbSize 0 (by omega)
  show (create5MbLoop (uploadPartLine ['1']) 0).length ≠ 5 * 1024 * 1024
  rw [h, hline]
  norm_num [fiveMbSize]

/-- C9 amended: for every part tag, the generated part stream consists of
174763 lines of 30 + tag-length bytes, hence is strictly longer than 5 MiB
(and never exactly 5 MiB); for a one-character tag it is 5417653 bytes. -/
theorem create5MbStream_true_length (partTag : List Char) :
    (Create5MbStreamForUploadPart partTag).length = 174763 * (30 + partTag.length)
    ∧ 5 * 1024 * 1024 < (Create5MbStreamForUploadPart partTag).length := by
  have h28 : ("Multi-Part upload Test Part ".data).length = 28 := by decide
  have hline : (uploadPartLine partTag).length = 30 + partTag.length := by
    simp [uploadPartLine, h28]
    omega
  have h := create5MbLoop_length (uploadPartLine partTag) fiveMbSize 0 (by omega)
  have hq : (fiveMbSize - 0 + 29) / 30 = 174763 := by norm_num [fiveMbSize]
  have hlen : (Create5MbStreamForUploadPart partTag).length = 174763 * (30 + partTag.length) := by
    show (create5MbLoop (uploadPartLine partTag) 0).length = _
    rw [h, hq, hline]
  exact ⟨hlen, by rw [hlen]; omega⟩

/-! Claim C10: frame conditions of the two result parsers. -/

/-- C10 counterexample: assigning a payload whose subscriptionFilters array
has one element onto a result already holding one filter leaves the list at
length two, not at the payload array's length one. -/
theorem filters_length_cex :
    ¬ (((⟨[.obj []], ""⟩ : DescribeSubscriptionFiltersResult).assign
          (.obj [("subscriptionFilters", .arr [.str "x"])])).m_subscriptionFilters.length
        = (getJsonArray (.obj [("subscriptionFilters", .arr [.str "x"])])
            "subscriptionFilters").length) := by
  decide

/-- C10 amended: each parser assignment modifies only the fields whose JSON
key exists in the payload (an absent key keeps the previous value, and an
empty payload changes nothing, in particular it leaves a default-constructed
result at its defaults); the subscriptionFilters elements are appended in
payload array order, so the list ends at its previous length plus the
payload array's length (which equals the array's length exactly when the
result was default-constructed). -/
theorem result_parsers_frame (r : GetDocumentationPartResult)
    (d : DescribeSubscriptionFiltersResult) (payload : JsonVal) :
    (valueExists payload "id" = false → (r.assign payload).m_id = r.m_id)
    ∧ (valueExists payload "location" = false → (r.assign payload).m_location = r.m_location)
    ∧ (valueExists payload "properties" = false →
        (r.assign payload).m_properties = r.m_properties)
    ∧ (valueExists payload "subscriptionFilters" = false →
        (d.assign payload).m_subscriptionFilters = d.m_subscriptionFilters)
    ∧ (valueExists payload "nextToken" = false → (d.assign payload).m_nextToken = d.m_nextToken)
    ∧ (r.assign (.obj []) = r)
    ∧ (d.assign (.obj []) = d)
    ∧ ((d.assign payload).m_subscriptionFilters
        = d.m_subscriptionFilters
          ++ (if valueExists payload "subscriptionFilters" then
                getJsonArray payload "subscriptionFilters" else []))
    ∧ ((d.assign payload).m_subscriptionFilters.length
        = d.m_subscriptionFilters.length
          + (if valueExists payload "subscriptionFilters" then
               (getJsonArray payload "subscriptionFilters").length else 0)) := by
  have hpush := foldl_push (getJsonArray payload "subscriptionFilters") d.m_subscriptionFilters
  refine ⟨?_, ?_, ?_, ?_, ?_, ?_, ?_, ?_, ?_⟩
  · intro h
    by_cases h2 : valueExists payload "location" <;> by_cases h3 : valueExists payload "properties" <;>
      simp [GetDocumentationPartResult.assign, h, h2, h3]
  · intro h
    by_cases h1 : valueExists payload "id" <;> by_cases h3 : valueExists payload "properties" <;>
      simp [GetDocumentationPartResult.assign, h, h1, h3]
  · intro h
    by_cases h1 : valueExists payload "id" <;> by_cases h2 : valueExists payload "location" <;>
      simp [GetDocumentationPartResult.assign, h, h1, h2]
  · intro h
    by_cases h2 : valueExists payload "nextToken" <;>
      simp [DescribeSubscriptionFiltersResult.assign, h, h2]
  · intro h
    by_cases h1 : valueExists payload "subscriptionFilters" <;>
      simp [DescribeSubscriptionFiltersResult.assign, h, h1]
  · simp [GetDocumentationPartResult.assign, valueExists, jsonFind]
  · simp [DescribeSubscriptionFiltersResult.assign, valueExists, jsonFind]
  · by_cases h1 : valueExists payload "subscriptionFilters" <;>
      by_cases h2 : valueExists payload "nextToken" <;>
      simp [DescribeSubscriptionFiltersResult.assign, h1, h2, hpush]
  · by_cases h1 : valueExists payload "subscriptionFilters" <;>
      by_cases h2 : valueExists payload "nextToken" <;>
      simp [DescribeSubscriptionFiltersResult.assign, h1, h2, hpush]

/-- C10 witness: at the empty payload, a default-constructed documentation
result is unchanged and the default filters result keeps its next token. -/
theorem result_parsers_frame_witness :
    (gdprDefault.assign (.obj []) = gdprDefault)
    ∧ ((dsfDefault.assign (.obj [])).m_nextToken = dsfDefault.m_nextToken) := by
  have h := result_parsers_frame gdprDefault dsfDefault (.obj [])
  exact ⟨h.2.2.2.2.2.1, h.2.2.2.2.1 (by decide)⟩

/-! Claim C3: entity tags are the quoted hex of the local checksum. -/

/-- C3: whenever putObject or uploadPart succeeds, the entity tag the store
reports is the hex encoding of the checksum computed locally over the
payload, wrapped in double quotes; and the upload-part verifier succeeds on
an outcome exactly when the outcome is a success carrying that quoted-hex
tag (so it fails on any mismatch or failed outcome). -/
theorem etag_is_quoted_hex_md5 (md5 : List Nat → List Nat) (s : S3Store) (b k : String)
    (uid n : Nat) (payload : List Nat) :
    (∀ e, (s.putObject md5 b k payload).2 = .success e →
        e = 34 :: hexEncode (md5 payload) ++ [34]
        ∧ VerifyUploadPartOutcome (s.putObject md5 b k payload).2 (md5 payload) = true)
    ∧ (∀ e, (s.uploadPart md5 uid n payload).2 = .success e →
        e = 34 :: hexEncode (md5 payload) ++ [34]
        ∧ VerifyUploadPartOutcome (s.uploadPart md5 uid n payload).2 (md5 payload) = true)
    ∧ (∀ (outcome : Outcome S3Error (List Nat)) (h : List Nat),
        VerifyUploadPartOutcome outcome h = true
          ↔ outcome = .success (34 :: hexEncode h ++ [34])) := by
  refine ⟨?_, ?_, ?_⟩
  · intro e he
    cases hb : s.buckets.lookup b with
    | none => simp [S3Store.putObject, hb] at he
    | some objs =>
      simp [S3Store.putObject, hb, etagOf] at he
      exact ⟨he.symm, by simp [S3Store.putObject, hb, etagOf, VerifyUploadPartOutcome]⟩
  · intro e he
    cases hu : s.sessions.lookup uid with
    | none => simp [S3Store.uploadPart, hu] at he
    | some sess =>
      simp [S3Store.uploadPart, hu, etagOf] at he
      exact ⟨he.symm, by simp [S3Store.uploadPart, hu, etagOf, VerifyUploadPartOutcome]⟩
  · intro outcome h
    cases outcome with
    | failure err => simp [VerifyUploadPartOutcome]
    | success et =>
      simp [VerifyUploadPartOutcome]
      exact eq_comm

/-- C3 witness: the concrete putObject of the payload "Test Object" (with a
length-byte checksum function) yields the quoted-hex tag and passes the
verifier. -/
theorem etag_is_quoted_hex_md5_witness :
    VerifyUploadPartOutcome
      ((⟨[("bkt", [])], [], 0⟩ : S3Store).putObject (fun l => [l.length % 256]) "bkt"
        "TestObjectKey" (strBytes "Test Object")).2
      ((fun l => [l.length % 256]) (strBytes "Test Object")) = true :=
  ((etag_is_quoted_hex_md5 (fun l => [l.length % 256]) ⟨[("bkt", [])], [], 0⟩ "bkt"
      "TestObjectKey" 0 1 (strBytes "Test Object")).1 [34, 48, 98, 34] (by decide)).2

/-! Claim C5: ensureAbsent on an absent container. -/

/-- C5: on a container whose existence check fails, the ensureAbsent helper
issues only that head call (no list, delete-object or delete-container
call), leaves the store unchanged, passes all its assertions, and calling it
twice in a row equals calling it once. -/
theorem ensureAbsent_idempotent (s : S3Store) (b : String)
    (h : s.buckets.lookup b = none) :
    DeleteBucket s b = (s, [.headBucketCall b], true)
    ∧ DeleteBucket (DeleteBucket s b).1 b = DeleteBucket s b := by
  have hh : s.headBucket b = .failure .noSuchBucket := by
    simp [S3Store.headBucket, h]
  have h1 : DeleteBucket s b = (s, [.headBucketCall b], true) := by
    unfold DeleteBucket
    rw [hh]
  have h2 : (DeleteBucket s b).1 = s := by rw [h1]
  exact ⟨h1, by rw [h2]⟩

/-- C5 witness: on the empty store, the helper for an absent container is a
pure head call returning success. -/
theorem ensureAbsent_idempotent_witness :
    DeleteBucket (⟨[], [], 0⟩ : S3Store) "bkt" = (⟨[], [], 0⟩, [.headBucketCall "bkt"], true) :=
  (ensureAbsent_idempotent ⟨[], [], 0⟩ "bkt" (by decide)).1

/-! Claim C6: ensureAbsent drains a present container before deleting it. -/

lemma deleteObject_lookup (s : S3Store) (b k : String) (objs : ObjMap)
    (h : s.buckets.lookup b = some objs) :
    ((s.deleteObject b k).1).buckets.lookup b = some (objs.filter (fun p => p.1 != k)) := by
  simp [S3Store.deleteObject, h, updBucket, lookup_map_update]

lemma foldl_emptyBucketStep (b : String) :
    ∀ (keys : List String) (s : S3Store) (objs : ObjMap) (tr : List StoreCall),
      s.buckets.lookup b = some objs →
      (∀ p ∈ objs, p.1 ∈ keys) →
      ((keys.foldl (emptyBucketStep b) (s, tr)).1).buckets.lookup b = some []
        ∧ (keys.foldl (emptyBucketStep b) (s, tr)).2
            = tr ++ keys.map (StoreCall.deleteObjectCall b) := by
  intro keys
  induction keys with
  | nil =>
    intro s objs tr h hsub
    refine ⟨?_, by simp⟩
    cases objs with
    | nil => simpa using h
    | cons p t => exact absurd (hsub p (by simp)) (by simp)
  | cons k rest ih =>
    intro s objs tr h hsub
    rw [List.foldl_cons]
    have hl : ((emptyBucketStep b (s, tr) k).1).buckets.lookup b
        = some (objs.filter (fun p => p.1 != k)) :=
      deleteObject_lookup s b k objs h
    have hsub2 : ∀ p ∈ objs.filter (fun p => p.1 != k), p.1 ∈ rest := by
      intro p hp
      have h1 := List.mem_filter.mp hp
      have h3 : p.1 ≠ k := by simpa using h1.2
      rcases List.mem_cons.mp (hsub p h1.1) with h4 | h4
      · exact absurd h4 h3
      · exact h4
    have hrec := ih (emptyBucketStep b (s, tr) k).1 (objs.filter (fun p => p.1 != k))
      (emptyBucketStep b (s, tr) k).2 hl hsub2
    refine ⟨hrec.1, ?_⟩
    rw [hrec.2]
    show (emptyBucketStep b (s, tr) k).2 ++ _ = _
    rw [show (emptyBucketStep b (s, tr) k).2 = tr ++ [StoreCall.deleteObjectCall b k] from rfl]
    simp

lemma EmptyBucket_drains (s : S3Store) (b : String) (objs : ObjMap)
    (h : s.buckets.lookup b = some objs) :
    ((EmptyBucket s b).1).buckets.lookup b = some []
    ∧ (EmptyBucket s b).2
        = .listObjectsCall b :: objs.map (fun p => StoreCall.deleteObjectCall b p.1) := by
  have hlist : s.listObjects b = .success (objs.map (fun p => p.1)) := by
    simp [S3Store.listObjects, h]
  have hfold := foldl_emptyBucketStep b (objs.map (fun p => p.1)) s objs [.listObjectsCall b]
    h (fun p hp => List.mem_map_of_mem _ hp)
  have hunf : EmptyBucket s b
      = (objs.map (fun p => p.1)).foldl (emptyBucketStep b) (s, [.listObjectsCall b]) := by
    unfold EmptyBucket
    rw [hlist]
  constructor
  · rw [hunf]
    exact hfold.1
  · rw [hunf, hfold.2]
    simp [List.map_map]

lemma WaitForBucketToEmpty_of_empty (s : S3Store) (b : String)
    (h : s.buckets.lookup b = some []) :
    WaitForBucketToEmpty s b = ([.listObjectsCall b], true) := by
  have hlist : s.listObjects b = .success ([] : List String) := by
    simp [S3Store.listObjects, h]
  have haux : ∀ r, 0 < r → waitForBucketToEmptyAux s b r = ([.listObjectsCall b], true) := by
    intro r hr
    cases r with
    | zero => omega
    | succ m => simp [waitForBucketToEmptyAux, hlist]
  exact haux TIMEOUT_MAX (by norm_num [TIMEOUT_MAX])

lemma deleteBucket_of_empty (s : S3Store) (b : String)
    (h : s.buckets.lookup b = some []) :
    ((s.deleteBucket b).1).buckets.lookup b = none ∧ (s.deleteBucket b).2 = .success () := by
  simp [S3Store.deleteBucket, h, lookup_filter_ne]

/-- C6: on a present container with any objects, the ensureAbsent helper
issues one delete for each listed object, all of them before the container
deletion (the exact call trace is head, list, the per-object deletes in
list order, the emptiness check, then the container delete), every asserted
outcome succeeds, and afterwards the container is gone, however many
objects it held. -/
theorem ensureAbsent_drains_all_objects (s : S3Store) (b : String) (objs : ObjMap)
    (h : s.buckets.lookup b = some objs) :
    ((DeleteBucket s b).1).buckets.lookup b = none
    ∧ (DeleteBucket s b).2.1
        = .headBucketCall b :: .listObjectsCall b
            :: objs.map (fun p => StoreCall.deleteObjectCall b p.1)
            ++ [.listObjectsCall b, .deleteBucketCall b]
    ∧ (DeleteBucket s b).2.2 = true := by
  have hhead : s.headBucket b = .success () := by simp [S3Store.headBucket, h]
  obtain ⟨he1, he2⟩ := EmptyBucket_drains s b objs h
  have hw := WaitForBucketToEmpty_of_empty (EmptyBucket s b).1 b he1
  obtain ⟨hd1, hd2⟩ := deleteBucket_of_empty (EmptyBucket s b).1 b he1
  have hunf : DeleteBucket s b
      = (((EmptyBucket s b).1.deleteBucket b).1,
         .headBucketCall b :: (EmptyBucket s b).2
           ++ (WaitForBucketToEmpty (EmptyBucket s b).1 b).1 ++ [.deleteBucketCall b],
         (WaitForBucketToEmpty (EmptyBucket s b).1 b).2
           && (((EmptyBucket s b).1.deleteBucket b).2).isSuccess) := by
    unfold DeleteBucket
    rw [hhead]
  rw [hunf]
  refine ⟨hd1, ?_, ?_⟩
  · rw [he2, hw]
    simp
  · rw [hw, hd2]
    simp [Outcome.isSuccess]

/-- C6 witness: a container holding two objects is fully drained and then
deleted, with all assertions passing. -/
theorem ensureAbsent_drains_all_objects_witness :
    (((DeleteBucket (⟨[("b", [("k1", ⟨[1], [34]⟩), ("k2", ⟨[2], [34]⟩)])], [], 0⟩ : S3Store)
        "b").1).buckets.lookup "b" = none)
    ∧ ((DeleteBucket (⟨[("b", [("k1", ⟨[1], [34]⟩), ("k2", ⟨[2], [34]⟩)])], [], 0⟩ : S3Store)
        "b").2.2 = true) := by
  have hx := ensureAbsent_drains_all_objects
    (⟨[("b", [("k1", ⟨[1], [34]⟩), ("k2", ⟨[2], [34]⟩)])], [], 0⟩ : S3Store) "b"
    [("k1", ⟨[1], [34]⟩), ("k2", ⟨[2], [34]⟩)] (by decide)
  exact ⟨hx.1, hx.2.2⟩

/-! Claim C7: the polling loops and their bounds. -/

lemma count_flatten_pair (m : Nat) :
    ((List.replicate m [PollEvent.storeCall, PollEvent.sleep1s]).flatten).count
        PollEvent.storeCall = m
    ∧ ((List.replicate m [PollEvent.storeCall, PollEvent.sleep1s]).flatten).count
        PollEvent.sleep1s = m := by
  induction m with
  | zero => simp
  | succ m ih =>
    have c1 : ([PollEvent.storeCall, PollEvent.sleep1s] : List PollEvent).count
        PollEvent.storeCall = 1 := by decide
    have c2 : ([PollEvent.storeCall, PollEvent.sleep1s] : List PollEvent).count
        PollEvent.sleep1s = 1 := by decide
    rw [List.replicate_succ, List.flatten_cons]
    constructor
    · rw [List.count_append, c1, ih.1]
      omega
    · rw [List.count_append, c2, ih.2]
      omega

lemma pollAux_calls_le (cond : Nat → Bool) :
    ∀ (r a : Nat), (pollAux cond a r).2.count PollEvent.storeCall ≤ r := by
  intro r
  induction r with
  | zero => intro a; simp [pollAux]
  | succ m ih =>
    intro a
    by_cases hc : cond a
    · simp [pollAux, hc]
    · simp only [pollAux, hc, if_false, Bool.false_eq_true]
      have h := ih (a + 1)
      simp [List.count_cons]
      omega

lemma pollAux_true_iff (cond : Nat → Bool) :
    ∀ (r a : Nat), ((pollAux cond a r).1 = true ↔ ∃ i, a ≤ i ∧ i < a + r ∧ cond i = true) := by
  intro r
  induction r with
  | zero =>
    intro a
    simp only [pollAux]
    constructor
    · intro h
      simp at h
    · rintro ⟨i, h1, h2, _⟩
      omega
  | succ m ih =>
    intro a
    by_cases hc : cond a
    · simp only [pollAux, hc, if_true]
      constructor
      · intro _
        exact ⟨a, le_refl a, by omega, hc⟩
      · intro _
        trivial
    · rw [show (pollAux cond a (m + 1)).1 = (pollAux cond (a + 1) m).1 from by
        simp [pollAux, hc]]
      rw [ih (a + 1)]
      constructor
      · rintro ⟨i, h1, h2, h3⟩
        exact ⟨i, by omega, by omega, h3⟩
      · rintro ⟨i, h1, h2, h3⟩
        rcases Nat.eq_or_lt_of_le h1 with heq | hlt
        · rw [← heq] at h3
          exact absurd h3 (by simp [hc])
        · exact ⟨i, by omega, by omega, h3⟩

lemma pollAux_first_success (cond : Nat → Bool) :
    ∀ (r a i : Nat), a ≤ i → i < a + r → cond i = true →
      (∀ j, a ≤ j → j < i → cond j = false) →
      pollAux cond a r
        = (true, (List.replicate (i - a) [PollEvent.storeCall, PollEvent.sleep1s]).flatten
            ++ [PollEvent.storeCall]) := by
  intro r
  induction r with
  | zero =>
    intro a i h1 h2 h3 h4
    omega
  | succ m ih =>
    intro a i h1 h2 h3 h4
    rcases Nat.eq_or_lt_of_le h1 with heq | hlt
    · rw [← heq] at h3
      rw [← heq]
      simp [pollAux, h3]
    · have hca : cond a = false := h4 a (le_refl a) hlt
      rw [show pollAux cond a (m + 1)
          = ((pollAux cond (a + 1) m).1,
             .storeCall :: .sleep1s :: (pollAux cond (a + 1) m).2) from by
        simp [pollAux, hca]]
      rw [ih (a + 1) i (by omega) (by omega) h3 (fun j hj1 hj2 => h4 j (by omega) hj2)]
      have hrep : i - a = (i - (a + 1)) + 1 := by omega
      rw [hrep, List.replicate_succ, List.flatten_cons]
      simp

lemma pollAux_all_fail (cond : Nat → Bool) :
    ∀ (r a : Nat), (∀ i, a ≤ i → i < a + r → cond i = false) →
      pollAux cond a r
        = (false, (List.replicate r [PollEvent.storeCall, PollEvent.sleep1s]).flatten) := by
  intro r
  induction r with
  | zero => intro a h; simp [pollAux]
  | succ m ih =>
    intro a h
    have hca : cond a = false := h a (le_refl a) (by omega)
    rw [show pollAux cond a (m + 1)
        = ((pollAux cond (a + 1) m).1,
           .storeCall :: .sleep1s :: (pollAux cond (a + 1) m).2) from by
      simp [pollAux, hca]]
    rw [ih (a + 1) (fun i h1 h2 => h i (by omega) (by omega))]
    rw [List.replicate_succ, List.flatten_cons]
    simp

lemma waitEmptyAux_calls_le (s : S3Store) (b : String) :
    ∀ r, (waitForBucketToEmptyAux s b r).1.count (StoreCall.listObjectsCall b) ≤ r := by
  intro r
  induction r with
  | zero => simp [waitForBucketToEmptyAux]
  | succ m ih =>
    cases hl : s.listObjects b with
    | failure e =>
      simp [waitForBucketToEmptyAux, hl, List.count_cons]
    | success keys =>
      by_cases hk : keys.length > 0
      · simp only [waitForBucketToEmptyAux, hl]
        rw [if_pos hk]
        simp [List.count_cons]
        omega
      · simp only [waitForBucketToEmptyAux, hl]
        rw [if_neg hk]
        simp [List.count_cons]

lemma getLast?_ends {α : Type} (x a : α) (l1 l2 : List α) :
    (x :: l1 ++ l2 ++ [a]).getLast? = some a := by
  rw [show x :: l1 ++ l2 ++ [a] = (x :: l1 ++ l2) ++ [a] by simp]
  exact List.getLast?_concat _

/-- C7 amended: the two propagation waiters perform at most TIMEOUT_MAX
store calls, return true exactly when some attempt within the bound
succeeds — stopping at the first success, with one 1-second sleep after
each failed attempt — and return false (with all TIMEOUT_MAX attempts
spent) when the bound is exhausted; the ensureAbsent helper has no
post-delete existence poll (its trace ends at the container deletion, or is
the lone head call), and its only loop — the pre-delete emptiness poll —
issues at most TIMEOUT_MAX list calls. -/
theorem polling_loops_bounded :
    (∀ heads : Nat → Outcome S3Error Unit,
        (WaitForBucketToPropagate heads).2.count PollEvent.storeCall ≤ TIMEOUT_MAX
        ∧ ((WaitForBucketToPropagate heads).1 = true
            ↔ ∃ i, i < TIMEOUT_MAX ∧ (heads i).isSuccess = true))
    ∧ (∀ headsObj : Nat → Outcome S3Error (List Nat),
        (WaitForObjectToPropagate headsObj).2.count PollEvent.storeCall ≤ TIMEOUT_MAX
        ∧ ((WaitForObjectToPropagate headsObj).1 = true
            ↔ ∃ i, i < TIMEOUT_MAX ∧ (headsObj i).isSuccess = true))
    ∧ (∀ (cond : Nat → Bool) (i : Nat), i < TIMEOUT_MAX → cond i = true →
        (∀ j, j < i → cond j = false) →
        pollPropagate cond
          = (true, (List.replicate i [PollEvent.storeCall, PollEvent.sleep1s]).flatten
              ++ [PollEvent.storeCall])
        ∧ (pollPropagate cond).2.count PollEvent.storeCall = i + 1
        ∧ (pollPropagate cond).2.count PollEvent.sleep1s = i)
    ∧ (∀ cond : Nat → Bool, (∀ i, i < TIMEOUT_MAX → cond i = false) →
        pollPropagate cond
          = (false,
             (List.replicate TIMEOUT_MAX [PollEvent.storeCall, PollEvent.sleep1s]).flatten)
        ∧ (pollPropagate cond).2.count PollEvent.storeCall = TIMEOUT_MAX)
    ∧ (∀ (s : S3Store) (b : String),
        (DeleteBucket s b).2.1.getLast? = some (.deleteBucketCall b)
          ∨ (DeleteBucket s b).2.1 = [.headBucketCall b])
    ∧ (∀ (s : S3Store) (b : String),
        (WaitForBucketToEmpty s b).1.count (.listObjectsCall b) ≤ TIMEOUT_MAX) := by
  refine ⟨?_, ?_, ?_, ?_, ?_, ?_⟩
  · intro heads
    refine ⟨pollAux_calls_le _ TIMEOUT_MAX 0, ?_⟩
    have h := pollAux_true_iff (fun i => (heads i).isSuccess) TIMEOUT_MAX 0
    simpa using h
  · intro headsObj
    refine ⟨pollAux_calls_le _ TIMEOUT_MAX 0, ?_⟩
    have h := pollAux_true_iff (fun i => (headsObj i).isSuccess) TIMEOUT_MAX 0
    simpa using h
  · intro cond i hi hcond hfirst
    have htr := pollAux_first_success cond TIMEOUT_MAX 0 i (by omega) (by omega) hcond
      (fun j _ hj => hfirst j hj)
    have hi0 : i - 0 = i := by omega
    rw [hi0] at htr
    refine ⟨htr, ?_, ?_⟩
    · show (pollAux cond 0 TIMEOUT_MAX).2.count PollEvent.storeCall = i + 1
      rw [htr]
      have hc1 : ([PollEvent.storeCall] : List PollEvent).count PollEvent.storeCall = 1 := by
        decide
      simp [List.count_append, (count_flatten_pair i).1, hc1]
    · show (pollAux cond 0 TIMEOUT_MAX).2.count PollEvent.sleep1s = i
      rw [htr]
      have hc0 : ([PollEvent.storeCall] : List PollEvent).count PollEvent.sleep1s = 0 := by
        decide
      simp [List.count_append, (count_flatten_pair i).2, hc0]
  · intro cond hall
    have htr := pollAux_all_fail cond TIMEOUT_MAX 0 (fun i _ hi => hall i (by omega))
    refine ⟨htr, ?_⟩
    show (pollAux cond 0 TIMEOUT_MAX).2.count PollEvent.storeCall = TIMEOUT_MAX
    rw [htr]
    exact (count_flatten_pair TIMEOUT_MAX).1
  · intro s b
    cases hh : s.headBucket b with
    | failure e =>
      right
      unfold DeleteBucket
      rw [hh]
    | success u =>
      left
      unfold DeleteBucket
      rw [hh]
      exact getLast?_ends _ _ _ _
  · intro s b
    exact waitEmptyAux_calls_le s b TIMEOUT_MAX

/-- C7 witness: with an oracle that succeeds immediately, the bucket waiter
returns true. -/
theorem polling_loops_bounded_witness :
    (WaitForBucketToPropagate (fun _ => Outcome.success ())).1 = true :=
  (polling_loops_bounded.1 (fun _ => Outcome.success ())).2.mpr
    ⟨0, by norm_num [TIMEOUT_MAX], rfl⟩

/-- C7 counterexample: on a store holding container "b" with one object,
the ensureAbsent helper issues exactly one existence check (its initial
one) and its last store call is the container deletion: it has no
post-delete existence poll at all. -/
theorem no_post_delete_poll_cex :
    ((DeleteBucket (⟨[("b", [("k", ⟨[1], [34]⟩)])], [], 0⟩ : S3Store) "b").2.1).getLast?
        = some (.deleteBucketCall "b")
    ∧ ((DeleteBucket (⟨[("b", [("k", ⟨[1], [34]⟩)])], [], 0⟩ : S3Store) "b").2.1).count
        (.headBucketCall "b") = 1 := by
  decide

/-! Claim C1: the finalized object is the ordered concatenation of the
parts. -/

lemma uploadPart_state (md5 : List Nat → List Nat) (s : S3Store) (uid n : Nat)
    (payload : List Nat) (sb sk : String) (sp : List (Nat × List Nat × List Nat))
    (h : s.sessions.lookup uid = some ⟨sb, sk, sp⟩) :
    ((s.uploadPart md5 uid n payload).1).sessions.lookup uid
      = some ⟨sb, sk, (n, payload, etagOf md5 payload) :: sp.filter (fun p => p.1 != n)⟩
    ∧ ((s.uploadPart md5 uid n payload).1).buckets = s.buckets := by
  constructor
  · simp [S3Store.uploadPart, h, lookup_updSession]
  · simp [S3Store.uploadPart, h, updSession]

lemma uploadAll_state (md5 : List Nat → List Nat) (uid : Nat) (payloads : List (List Nat)) :
    ∀ (order : List Nat) (s : S3Store) (b k : String)
      (parts0 : List (Nat × List Nat × List Nat)),
      s.sessions.lookup uid = some ⟨b, k, parts0⟩ →
      order.Nodup →
      (∀ i ∈ order, ∀ p ∈ parts0, p.1 ≠ i) →
      (uploadAll md5 uid payloads order s).sessions.lookup uid
          = some ⟨b, k, order.reverse.map (partEntry md5 payloads) ++ parts0⟩
      ∧ (uploadAll md5 uid payloads order s).buckets = s.buckets := by
  intro order
  induction order with
  | nil =>
    intro s b k parts0 h hn hf
    exact ⟨by simpa [uploadAll] using h, rfl⟩
  | cons i rest ih =>
    intro s b k parts0 h hn hf
    have hstep := uploadPart_state md5 s uid i (payloadAt payloads i) b k parts0 h
    have hfilter : parts0.filter (fun p => p.1 != i) = parts0 := by
      apply List.filter_eq_self.mpr
      intro p hp
      simpa using hf i (by simp) p hp
    have hsess2 : (uploadAllStep md5 uid payloads s i).sessions.lookup uid
        = some ⟨b, k, partEntry md5 payloads i :: parts0⟩ := by
      show ((s.uploadPart md5 uid i (payloadAt payloads i)).1).sessions.lookup uid = _
      rw [hstep.1, hfilter]
      rfl
    have hfresh2 : ∀ j ∈ rest, ∀ p ∈ partEntry md5 payloads i :: parts0, p.1 ≠ j := by
      intro j hj p hp
      rcases List.mem_cons.mp hp with hp1 | hp1
      · rw [hp1]
        show i ≠ j
        intro heq
        exact (List.nodup_cons.mp hn).1 (heq ▸ hj)
      · exact hf j (by simp [hj]) p hp1
    have hrec := ih (uploadAllStep md5 uid payloads s i) b k
      (partEntry md5 payloads i :: parts0) hsess2 (List.nodup_cons.mp hn).2 hfresh2
    have hfold : uploadAll md5 uid payloads (i :: rest) s
        = uploadAll md5 uid payloads rest (uploadAllStep md5 uid payloads s i) := by
      unfold uploadAll
      rw [List.foldl_cons]
    constructor
    · rw [hfold, hrec.1]
      simp [List.reverse_cons]
    · rw [hfold, hrec.2]
      exact hstep.2

lemma partsFind_map_partEntry (md5 : List Nat → List Nat) (payloads : List (List Nat)) :
    ∀ (m : List Nat) (i : Nat), i ∈ m →
      partsFind (m.map (partEntry md5 payloads)) i
        = some (payloadAt payloads i, etagOf md5 (payloadAt payloads i)) := by
  intro m
  induction m with
  | nil => intro i hi; simp at hi
  | cons j rest ih =>
    intro i hi
    by_cases hij : j = i
    · subst hij
      unfold partsFind
      rw [List.map_cons, List.find?_cons_of_pos _ (by simp [partEntry])]
      simp [partEntry]
    · have hi2 : i ∈ rest := by
        rcases List.mem_cons.mp hi with h | h
        · exact absurd h.symm hij
        · exact h
      unfold partsFind
      rw [List.map_cons, List.find?_cons_of_neg _ (by simp [partEntry, hij])]
      exact ih i hi2

lemma resolveParts_map_idx (md5 : List Nat → List Nat) (payloads : List (List Nat))
    (parts : List (Nat × List Nat × List Nat)) :
    ∀ idxs : List Nat,
      (∀ i ∈ idxs, partsFind parts i
          = some (payloadAt payloads i, etagOf md5 (payloadAt payloads i))) →
      resolveParts parts (idxs.map (fun i => (i, etagOf md5 (payloadAt payloads i))))
        = some (idxs.map (payloadAt payloads)) := by
  intro idxs
  induction idxs with
  | nil => intro h; simp [resolveParts]
  | cons i rest ih =>
    intro h
    have hrest := ih (fun j hj => h j (by simp [hj]))
    simp [resolveParts, h i (by simp), hrest]

lemma map_getD_range {α : Type} : ∀ (l : List α) (d : α),
    (List.range l.length).map (fun j => l.getD j d) = l := by
  intro l
  induction l with
  | nil => intro d; simp
  | cons a t ih =>
    intro d
    rw [List.length_cons, List.range_succ_eq_map, List.map_cons, List.map_map]
    show a :: List.map (fun j => t.getD j d) (List.range t.length) = a :: t
    rw [ih]

lemma range'_map_payloadAt (payloads : List (List Nat)) :
    (List.range' 1 payloads.length).map (payloadAt payloads) = payloads := by
  rw [List.range'_eq_map_range, List.map_map]
  have hcongr : ∀ j ∈ List.range payloads.length,
      (payloadAt payloads ∘ (1 + ·)) j = payloads.getD j [] := by
    intro j hj
    show payloads.getD (1 + j - 1) [] = payloads.getD j []
    have h1 : 1 + j - 1 = j := by omega
    rw [h1]
  rw [List.map_congr_left hcongr]
  exact map_getD_range payloads []

/-- C1: starting from a fresh session on an existing container, uploading
the N parts concurrently (their store arrivals forming any permutation of
1..N) and finalizing with the manifest sorted by ascending sequence number
succeeds, and getObject then returns exactly the concatenation of the
parts' original payloads in ascending sequence-number order (part 1, then
part 2, ..., then part N). -/
theorem multipart_ordered_concat (md5 : List Nat → List Nat) (s : S3Store) (uid : Nat)
    (b k : String) (objs : ObjMap) (payloads : List (List Nat)) (order : List Nat)
    (hsess : s.sessions.lookup uid = some ⟨b, k, []⟩)
    (hbkt : s.buckets.lookup b = some objs)
    (horder : order.Perm (List.range' 1 payloads.length)) :
    ((uploadAll md5 uid payloads order s).completeMultipartUpload md5 uid
        (ascendingManifest md5 payloads)).2 = .success ()
    ∧ (((uploadAll md5 uid payloads order s).completeMultipartUpload md5 uid
        (ascendingManifest md5 payloads)).1.getObject b k)
        = .success ⟨payloads.flatten, etagOf md5 payloads.flatten⟩ := by
  have hnodup : order.Nodup := horder.nodup_iff.mpr (List.nodup_range' 1 payloads.length)
  have hupl := uploadAll_state md5 uid payloads order s b k [] hsess hnodup
    (by intro i _ p hp; simp at hp)
  have hs1sess : (uploadAll md5 uid payloads order s).sessions.lookup uid
      = some ⟨b, k, order.reverse.map (partEntry md5 payloads)⟩ := by
    simpa using hupl.1
  have hs1b : (uploadAll md5 uid payloads order s).buckets.lookup b = some objs := by
    rw [hupl.2]
    exact hbkt
  have hfind : ∀ i ∈ List.range' 1 payloads.length,
      partsFind (order.reverse.map (partEntry md5 payloads)) i
        = some (payloadAt payloads i, etagOf md5 (payloadAt payloads i)) := by
    intro i hi
    apply partsFind_map_partEntry
    rw [List.mem_reverse]
    exact horder.mem_iff.mpr hi
  have hassemble : assembleParts (order.reverse.map (partEntry md5 payloads))
      (ascendingManifest md5 payloads) = some payloads.flatten := by
    unfold assembleParts ascendingManifest
    rw [resolveParts_map_idx md5 payloads _ (List.range' 1 payloads.length) hfind]
    rw [range'_map_payloadAt]
    rfl
  have hall : (order.reverse.map (partEntry md5 payloads)).all
      (fun p => (ascendingManifest md5 payloads).any (fun m => m.1 == p.1)) = true := by
    rw [List.all_eq_true]
    intro p hp
    obtain ⟨i, hi, rfl⟩ := List.mem_map.mp hp
    rw [List.any_eq_true]
    refine ⟨(i, etagOf md5 (payloadAt payloads i)), ?_, by simp [partEntry]⟩
    unfold ascendingManifest
    apply List.mem_map_of_mem
    rw [List.mem_reverse] at hi
    exact horder.mem_iff.mp hi
  have hfinal : (uploadAll md5 uid payloads order s).completeMultipartUpload md5 uid
      (ascendingManifest md5 payloads)
      = (updBucket
          { uploadAll md5 uid payloads order s with
            sessions := (uploadAll md5 uid payloads order s).sessions.filter
              (fun p => p.1 != uid) }
          b
          (fun om => (k, ⟨payloads.flatten, etagOf md5 payloads.flatten⟩)
              :: om.filter (fun p => p.1 != k)),
         Outcome.success ()) := by
    simp only [S3Store.completeMultipartUpload, hs1sess, hassemble, hall, hs1b]
    rfl
  rw [hfinal]
  refine ⟨rfl, ?_⟩
  unfold S3Store.getObject
  rw [lookup_updBucket]
  simp [hs1b, List.lookup]

/-- C1 witness: two concrete parts uploaded in reversed completion order
and finalized with the ascending manifest yield the concatenation of part 1
then part 2. -/
theorem multipart_ordered_concat_witness :
    ((uploadAll (fun l => [l.length % 256]) 7 [[1, 2], [3]] [2, 1]
        (⟨[("b", [])], [(7, ⟨"b", "k", []⟩)], 8⟩ : S3Store)).completeMultipartUpload
        (fun l => [l.length % 256]) 7
        (ascendingManifest (fun l => [l.length % 256]) [[1, 2], [3]])).2 = .success ()
    ∧ (((uploadAll (fun l => [l.length % 256]) 7 [[1, 2], [3]] [2, 1]
        (⟨[("b", [])], [(7, ⟨"b", "k", []⟩)], 8⟩ : S3Store)).completeMultipartUpload
        (fun l => [l.length % 256]) 7
        (ascendingManifest (fun l => [l.length % 256]) [[1, 2], [3]])).1.getObject "b" "k")
        = .success ⟨([[1, 2], [3]] : List (List Nat)).flatten,
            etagOf (fun l => [l.length % 256]) ([[1, 2], [3]] : List (List Nat)).flatten⟩ :=
  multipart_ordered_concat (fun l => [l.length % 256])
    (⟨[("b", [])], [(7, ⟨"b", "k", []⟩)], 8⟩ : S3Store) 7 "b" "k" [] [[1, 2], [3]] [2, 1]
    (by decide) (by decide) (by decide)
